import Mathlib

/-! # errobust: classified errors and their inspection functions

A shallow embedding of `errobust.go`.  The package defines one error type,
`Error`, that carries a message and an integer code, three named codes, and a
handful of functions that classify an arbitrary `error` interface value.

Modelling choices:

* Go's `int` is embedded as `Int`.  The package never does arithmetic on a
  code, so no wrap-around can be observed; every `int` is an `Int`.
* Go's `string` is embedded as `String`.
* A value of the interface type `error` is a `GoError`: the nil interface, a
  value whose dynamic type is this package's `Error`, or a value of some other
  dynamic type, of which only the `%T` name and the `Error()` text are kept.
* `fmt.Sprintf` is embedded for the fragment of format strings this package
  uses (plain text and the flag-free verbs `%d`, `%s`, `%v`, `%T`, `%%`).
-/

set_option linter.dupNamespace false

namespace errobust

/-! ## The fragment of package `fmt` that the source relies on -/

namespace fmt

/-- An operand handed to `Sprintf` (a Go `any`): the nil interface, an `int`,
a `string`, or a value of another dynamic type known by its `%T` name and by
the text its `Error()` method yields. -/
inductive Operand where
  | nil
  | int (v : Int)
  | str (s : String)
  | dyn (typeName : String) (text : String)
  deriving DecidableEq, Repr

/-- The digit table `"0123456789"` of `fmt`, indexed by a value below ten. -/
def digit (n : Nat) : Char := Char.ofNat (48 + n)

/-- The base-10 loop of `fmtInteger`: while `u >= 10` store the low digit in
front of what the buffer already holds and divide; then store the leading
digit.  `fuel` bounds the number of divisions. -/
def fmtDigits : Nat → Nat → List Char → List Char
  | 0, u, buf => digit u :: buf
  | fuel + 1, u, buf =>
    if u ≥ 10 then
      let next := u / 10
      fmtDigits fuel next (digit (u - next * 10) :: buf)
    else
      digit u :: buf

/-- The unsigned digits of `u`; `u` divisions always suffice. -/
def fmtUnsigned (u : Nat) : List Char := fmtDigits u u []

/-- The verb `%d` on a signed integer (`fmtInteger` with base 10, no flags):
the digits of the magnitude, with `'-'` in front when the value is negative. -/
def fmtInteger (v : Int) : List Char :=
  if v < 0 then '-' :: fmtUnsigned v.natAbs else fmtUnsigned v.natAbs

/-- The text `%T` prints for an operand. -/
def typeString : Operand → String
  | .nil => "<nil>"
  | .int _ => "int"
  | .str _ => "string"
  | .dyn t _ => t

/-- The output of one verb applied to one operand (`printArg`).  `none` marks a
verb and operand pair that lies outside the embedded fragment. -/
def printArg (verb : Char) (arg : Operand) : Option (List Char) :=
  if verb = 'T' then some (typeString arg).data
  else match arg with
    | .nil => if verb = 'v' then some "<nil>".data else none
    | .int v => if verb = 'd' ∨ verb = 'v' then some (fmtInteger v) else none
    | .str s => if verb = 's' ∨ verb = 'v' then some s.data else none
    | .dyn _ text => if verb = 's' ∨ verb = 'v' then some text.data else none

/-- The scanning loop of `doPrintf`.  `pending` records that the previous
character was a `%` still waiting for its verb.  Text is copied, `%%` prints a
percent sign, any other verb consumes the next operand.  A missing verb, a
missing operand or a left-over operand falls outside the fragment. -/
def doPrintf : Bool → List Char → List Operand → Option (List Char)
  | false, [], [] => some []
  | false, [], _ :: _ => none
  | true, [], _ => none
  | false, c :: rest, a =>
    if c = '%' then doPrintf true rest a
    else (doPrintf false rest a).map (fun out => c :: out)
  | true, c :: rest, a =>
    if c = '%' then (doPrintf false rest a).map (fun out => '%' :: out)
    else match a with
      | [] => none
      | x :: xs =>
        match printArg c x, doPrintf false rest xs with
        | some s, some out => some (s ++ out)
        | _, _ => none

/-- The embedded `fmt.Sprintf`. -/
def Sprintf (format : String) (a : List Operand) : Option String :=
  (doPrintf false format.data a).map String.mk

end fmt

/-! ## Package `errobust` -/

namespace http

/-- The constant `net/http.StatusConflict`. -/
def StatusConflict : Int := 409

/-- The constant `net/http.StatusNotFound`. -/
def StatusNotFound : Int := 404

/-- The constant `net/http.StatusInternalServerError`. -/
def StatusInternalServerError : Int := 500

end http

/-- The code `Conflict`. -/
def Conflict : Int := http.StatusConflict

/-- The code `NotFound`. -/
def NotFound : Int := http.StatusNotFound

/-- The code `Unhandled`. -/
def Unhandled : Int := http.StatusInternalServerError

/-- The struct `Error`: a message and a code. -/
structure Error where
  msg : String
  code : Int
  deriving DecidableEq, Repr

/-- The method `Error.Error`: `fmt.Sprintf("error[%d]: %s", e.code, e.msg)`.
The call stays inside the embedded fragment (`fmt.Sprintf_error` below), so the
default of `getD` is never taken. -/
def Error.Error (e : errobust.Error) : String :=
  (fmt.Sprintf "error[%d]: %s" [.int e.code, .str e.msg]).getD ""

/-- The method `Error.Code`. -/
def Error.Code (e : errobust.Error) : Int := e.code

/-- The method `Error.IsConflict`. -/
def Error.IsConflict (e : errobust.Error) : Bool := e.code == Conflict

/-- The method `Error.IsNotFound`. -/
def Error.IsNotFound (e : errobust.Error) : Bool := e.code == NotFound

/-- The method `Error.IsUnhandled`. -/
def Error.IsUnhandled (e : errobust.Error) : Bool := e.code == Unhandled

/-- The constructor `New`. -/
def New (msg : String) (code : Int) : Error := { msg := msg, code := code }

/-- A value of the interface type `error`. -/
inductive GoError where
  | nil
  | errobust (e : Error)
  | foreign (typeName : String) (text : String)
  deriving DecidableEq, Repr

/-- The operand `Sprintf` receives when handed an `error`. -/
def GoError.toOperand : GoError → fmt.Operand
  | .nil => .nil
  | .errobust e => .dyn "errobust.Error" e.Error
  | .foreign t s => .dyn t s

/-- The comma-ok type assertion `err.(Error)`: the value and `true` when the
dynamic type is `Error`, the zero `Error` and `false` otherwise. -/
def GoError.assertError : GoError → Error × Bool
  | .errobust e => (e, true)
  | _ => ({ msg := "", code := 0 }, false)

/-- The function `TryGetCode`. -/
def TryGetCode (err : GoError) : Int × GoError :=
  match err.assertError with
  | (e, true) => (e.code, .nil)
  | (_, false) =>
    (0, .errobust
      { msg := (fmt.Sprintf "could not convert type %T to type Error" [err.toOperand]).getD ""
        code := Unhandled })

/-- The function `GetCode`. -/
def GetCode (err : GoError) : Int :=
  match TryGetCode err with
  | (code, e) => if e ≠ .nil then -1 else code

/-- The function `IsConflict`. -/
def IsConflict (err : GoError) : Bool :=
  match err.assertError with
  | (e, ok) => ok && e.IsConflict

/-- The function `IsNotFound`. -/
def IsNotFound (err : GoError) : Bool :=
  match err.assertError with
  | (e, ok) => ok && e.IsNotFound

/-- The function `IsUnhandled`. -/
def IsUnhandled (err : GoError) : Bool :=
  match err.assertError with
  | (e, ok) => ok && e.IsUnhandled

/-- The struct `Handler`, which has no fields. -/
structure Handler where
  deriving DecidableEq, Repr

/-- The method `Handler.TryGetCode`. -/
def Handler.TryGetCode (_h : Handler) (err : GoError) : Int × GoError :=
  errobust.TryGetCode err

/-- The method `Handler.GetCode`. -/
def Handler.GetCode (_h : Handler) (err : GoError) : Int :=
  errobust.GetCode err

/-- The method `Handler.IsConflict`. -/
def Handler.IsConflict (_h : Handler) (err : GoError) : Bool :=
  errobust.IsConflict err

/-- The method `Handler.IsNotFound`. -/
def Handler.IsNotFound (_h : Handler) (err : GoError) : Bool :=
  errobust.IsNotFound err

/-- The method `Handler.IsUnhandled`. -/
def Handler.IsUnhandled (_h : Handler) (err : GoError) : Bool :=
  errobust.IsUnhandled err

end errobust

/-! ## The digit loop and the two `Sprintf` calls of the package -/

namespace errobust

/-- The value a list of decimal digit characters denotes, most significant
digit first. -/
def decimalValue (ds : List Char) : Nat :=
  ds.foldl (fun acc d => 10 * acc + (d.toNat - 48)) 0

namespace fmt

theorem digit_isDigit (n : Nat) (h : n < 10) : (digit n).isDigit = true := by
  interval_cases n <;> rfl

theorem digit_toNat (n : Nat) (h : n < 10) : (digit n).toNat - 48 = n := by
  interval_cases n <;> rfl

theorem digit_eq_zero (n : Nat) (h : n < 10) (h0 : digit n = '0') : n = 0 := by
  interval_cases n <;> first | rfl | (exact absurd h0 (by decide))

theorem fmtDigits_append (fuel u : Nat) (buf : List Char) :
    fmtDigits fuel u buf = fmtDigits fuel u [] ++ buf := by
  induction fuel generalizing u buf with
  | zero => simp [fmtDigits]
  | succ k ih =>
    unfold fmtDigits
    split
    · simp only []
      rw [ih (u / 10) (digit (u - u / 10 * 10) :: buf), ih (u / 10) [digit (u - u / 10 * 10)]]
      simp
    · simp

theorem fmtDigits_small (fuel u : Nat) (h : u < 10) :
    fmtDigits fuel u [] = [digit u] := by
  cases fuel with
  | zero => rfl
  | succ k => unfold fmtDigits; rw [if_neg (by omega)]

theorem fmtDigits_large (fuel u : Nat) (h : 10 ≤ u) :
    fmtDigits (fuel + 1) u [] = fmtDigits fuel (u / 10) [] ++ [digit (u % 10)] := by
  conv_lhs => unfold fmtDigits
  rw [if_pos h]
  simp only []
  rw [fmtDigits_append]
  congr 3
  omega

theorem decimalValue_snoc (ds : List Char) (d : Char) :
    decimalValue (ds ++ [d]) = 10 * decimalValue ds + (d.toNat - 48) := by
  simp [decimalValue, List.foldl_append]

/-- With enough fuel the digit loop yields a non-empty list of decimal digits
that denotes `u` and starts with `'0'` only when `u` is zero. -/
theorem fmtDigits_spec (fuel u : Nat) (h : u ≤ fuel) :
    fmtDigits fuel u [] ≠ [] ∧
    (∀ d ∈ fmtDigits fuel u [], d.isDigit = true) ∧
    decimalValue (fmtDigits fuel u []) = u ∧
    ((fmtDigits fuel u []).head? = some '0' → u = 0) := by
  induction fuel generalizing u with
  | zero =>
    obtain rfl : u = 0 := by omega
    refine ⟨by simp [fmtDigits], ?_, ?_, fun _ => rfl⟩
    · intro d hd
      simp only [fmtDigits, List.mem_singleton] at hd
      subst hd
      rfl
    · rfl
  | succ k ih =>
    by_cases hu : u < 10
    · rw [fmtDigits_small _ _ hu]
      refine ⟨by simp, ?_, ?_, ?_⟩
      · intro d hd
        rw [List.mem_singleton] at hd
        subst hd
        exact digit_isDigit u hu
      · simp [decimalValue, digit_toNat u hu]
      · intro h0
        simp only [List.head?_cons, Option.some.injEq] at h0
        exact digit_eq_zero u hu h0
    · have hu10 : 10 ≤ u := by omega
      have hk : u / 10 ≤ k := by omega
      obtain ⟨hne, hdig, hval, hhead⟩ := ih (u / 10) hk
      rw [fmtDigits_large _ _ hu10]
      refine ⟨by simp, ?_, ?_, ?_⟩
      · intro d hd
        rw [List.mem_append, List.mem_singleton] at hd
        rcases hd with hd | hd
        · exact hdig d hd
        · subst hd
          exact digit_isDigit _ (Nat.mod_lt _ (by decide))
      · rw [decimalValue_snoc, hval, digit_toNat _ (Nat.mod_lt _ (by decide))]
        omega
      · intro h0
        cases hD : fmtDigits k (u / 10) [] with
        | nil => exact absurd hD hne
        | cons x xs =>
          rw [hD] at h0 hhead
          have := hhead (by simpa using h0)
          omega

theorem fmtUnsigned_ne_nil (u : Nat) : fmtUnsigned u ≠ [] :=
  (fmtDigits_spec u u (Nat.le_refl u)).1

theorem fmtUnsigned_isDigit (u : Nat) : ∀ d ∈ fmtUnsigned u, d.isDigit = true :=
  (fmtDigits_spec u u (Nat.le_refl u)).2.1

theorem fmtUnsigned_value (u : Nat) : decimalValue (fmtUnsigned u) = u :=
  (fmtDigits_spec u u (Nat.le_refl u)).2.2.1

theorem fmtUnsigned_head (u : Nat) (h : (fmtUnsigned u).head? = some '0') :
    fmtUnsigned u = ['0'] := by
  have h0 := (fmtDigits_spec u u (Nat.le_refl u)).2.2.2 h
  subst h0
  rfl

/-- The call `Sprintf("error[%d]: %s", code, msg)` stays inside the fragment. -/
theorem Sprintf_error (c : Int) (m : String) :
    Sprintf "error[%d]: %s" [.int c, .str m] =
      some (String.mk ("error[".data ++ fmtInteger c ++ "]: ".data ++ m.data)) := by
  simp [Sprintf, doPrintf, printArg]

/-- The call `Sprintf("could not convert type %T to type Error", x)` stays
inside the fragment. -/
theorem Sprintf_convert (x : Operand) :
    Sprintf "could not convert type %T to type Error" [x] =
      some (String.mk ("could not convert type ".data ++ (typeString x).data ++
        " to type Error".data)) := by
  simp [Sprintf, doPrintf, printArg]

end fmt

end errobust

namespace errobust

/-! ## Facts about the embedding shared by the claims below -/

theorem Error_Error_eq (e : Error) :
    e.Error = "error[" ++ String.mk (fmt.fmtInteger e.code) ++ "]: " ++ e.msg := by
  unfold Error.Error
  rw [fmt.Sprintf_error]
  apply String.ext
  simp [String.data_append]

theorem assertError_errobust (e : Error) :
    (GoError.errobust e).assertError = (e, true) := rfl

theorem assertError_of_not_errobust (err : GoError) (h : ∀ e, err ≠ .errobust e) :
    err.assertError = ({ msg := "", code := 0 }, false) := by
  cases err with
  | nil => rfl
  | errobust e => exact absurd rfl (h e)
  | foreign t s => rfl

theorem TryGetCode_errobust (e : Error) :
    TryGetCode (.errobust e) = (e.code, .nil) := rfl

theorem TryGetCode_of_not_errobust (err : GoError) (h : ∀ e, err ≠ .errobust e) :
    TryGetCode err =
      (0, .errobust
        { msg := "could not convert type " ++ fmt.typeString err.toOperand ++ " to type Error"
          code := Unhandled }) := by
  unfold TryGetCode
  rw [assertError_of_not_errobust err h, fmt.Sprintf_convert]
  simp only [Option.getD_some]
  congr 3

theorem GetCode_errobust (e : Error) : GetCode (.errobust e) = e.code := by
  simp [GetCode, TryGetCode_errobust]

theorem GetCode_of_not_errobust (err : GoError) (h : ∀ e, err ≠ .errobust e) :
    GetCode err = -1 := by
  simp [GetCode, TryGetCode_of_not_errobust err h]

theorem fmtInteger_500 : fmt.fmtInteger 500 = "500".data := by decide

theorem Error_example_404 : (New "x" 404).Error = "error[404]: x" := by decide

theorem Error_example_negative : (New "100% x" (-404)).Error = "error[-404]: 100% x" := by
  decide

theorem Error_example_zero : (New "" 0).Error = "error[0]: " := by decide

theorem TryGetCode_example_nil :
    TryGetCode GoError.nil =
      (0, .errobust (New "could not convert type <nil> to type Error" 500)) := by
  decide

end errobust

namespace errobust

/-! ## The claims -/

/-- C1: for every `error` value that is not an errobust `Error` (nil or of any
other dynamic type), `TryGetCode` returns the integer 0 together with a non-nil
error that is an errobust `Error` whose code is `Unhandled`, which is 500; the
code does not depend on why the conversion failed. -/
theorem C1_TryGetCode_fallback (err : GoError) (h : ∀ e : Error, err ≠ .errobust e) :
    (TryGetCode err).1 = 0 ∧ (TryGetCode err).2 ≠ GoError.nil ∧
    ∃ f : Error, (TryGetCode err).2 = GoError.errobust f ∧
      f.Code = Unhandled ∧ f.Code = 500 ∧ f.IsUnhandled = true := by
  rw [TryGetCode_of_not_errobust err h]
  exact ⟨rfl, fun hnil => GoError.noConfusion hnil, _, rfl, rfl, rfl, rfl⟩

theorem C1_TryGetCode_fallback_witness :
    (TryGetCode GoError.nil).1 = 0 ∧ (TryGetCode GoError.nil).2 ≠ GoError.nil ∧
    ∃ f : Error, (TryGetCode GoError.nil).2 = GoError.errobust f ∧
      f.Code = Unhandled ∧ f.Code = 500 ∧ f.IsUnhandled = true :=
  C1_TryGetCode_fallback GoError.nil (fun _ hne => GoError.noConfusion hne)

/-- C2: for every message `m` and code `c`, `TryGetCode(New(m, c))` returns
`(c, nil)`; in particular `TryGetCode(New("x", 404))` is `(404, nil)`. -/
theorem C2_TryGetCode_New (m : String) (c : Int) :
    TryGetCode (.errobust (New m c)) = (c, GoError.nil) ∧
    TryGetCode (.errobust (New "x" 404)) = (404, GoError.nil) :=
  ⟨rfl, rfl⟩

/-- C3: `GetCode` is a total function into the integers that returns the
stored code of an errobust `Error` and -1 for every other `error` value, nil
included; so `GetCode(New(m, c)) = c`, and a plain error gives -1. -/
theorem C3_GetCode (err : GoError) (m : String) (c : Int) :
    GetCode err = (match err with
      | .errobust e => e.Code
      | .nil => -1
      | .foreign _ _ => -1) ∧
    GetCode (.errobust (New m c)) = c ∧
    GetCode (.errobust (New "x" 404)) = 404 ∧
    GetCode (.foreign "*errors.errorString" "boom") = -1 := by
  refine ⟨?_, GetCode_errobust _, GetCode_errobust _, ?_⟩
  · cases err with
    | nil => exact GetCode_of_not_errobust _ (fun _ hne => GoError.noConfusion hne)
    | errobust e => exact GetCode_errobust e
    | foreign t s => exact GetCode_of_not_errobust _ (fun _ hne => GoError.noConfusion hne)
  · exact GetCode_of_not_errobust _ (fun _ hne => GoError.noConfusion hne)

/-- C4: for every `Error` with stored code `c`, `IsConflict` holds exactly when
`c = 409`, `IsNotFound` exactly when `c = 404` and `IsUnhandled` exactly when
`c = 500`, these being the values of `Conflict`, `NotFound` and `Unhandled`;
all three are false for the unrecognised code 123. -/
theorem C4_Error_predicates (e : Error) :
    (e.IsConflict = true ↔ e.Code = 409) ∧
    (e.IsNotFound = true ↔ e.Code = 404) ∧
    (e.IsUnhandled = true ↔ e.Code = 500) ∧
    Conflict = 409 ∧ NotFound = 404 ∧ Unhandled = 500 ∧
    (New "x" 123).IsConflict = false ∧ (New "x" 123).IsNotFound = false ∧
    (New "x" 123).IsUnhandled = false := by
  refine ⟨?_, ?_, ?_, rfl, rfl, rfl, by decide, by decide, by decide⟩
  · simp [Error.IsConflict, Error.Code, Conflict, http.StatusConflict]
  · simp [Error.IsNotFound, Error.Code, NotFound, http.StatusNotFound]
  · simp [Error.IsUnhandled, Error.Code, Unhandled, http.StatusInternalServerError]

/-- C5: each free predicate `IsConflict`, `IsNotFound`, `IsUnhandled` is a
total function that returns false on an `error` that is not an errobust `Error`
(nil included) and the result of the method of the same name on an errobust
`Error`. -/
theorem C5_free_predicates (err : GoError) :
    IsConflict err = (match err with
      | .errobust e => e.IsConflict
      | .nil => false
      | .foreign _ _ => false) ∧
    IsNotFound err = (match err with
      | .errobust e => e.IsNotFound
      | .nil => false
      | .foreign _ _ => false) ∧
    IsUnhandled err = (match err with
      | .errobust e => e.IsUnhandled
      | .nil => false
      | .foreign _ _ => false) := by
  cases err <;> exact ⟨rfl, rfl, rfl⟩

/-- C6: for every message `m` and code `c`, `New(m, c).Error()` is `"error["`,
then the base-10 rendering of `c`, then `"]: "`, then `m` unchanged.  The
rendering is a `'-'` exactly when `c` is negative followed by a non-empty list
of decimal digits that denotes the magnitude of `c` and has no leading zero
(it starts with `'0'` only when it is `"0"`). -/
theorem C6_Error_rendering (m : String) (c : Int) :
    ∃ ds : List Char,
      (New m c).Error =
        "error[" ++ (if c < 0 then "-" else "") ++ String.mk ds ++ "]: " ++ m ∧
      ds ≠ [] ∧ (∀ d ∈ ds, d.isDigit = true) ∧
      (ds.head? = some '0' → ds = ['0']) ∧
      decimalValue ds = c.natAbs := by
  refine ⟨fmt.fmtUnsigned c.natAbs, ?_, fmt.fmtUnsigned_ne_nil _, fmt.fmtUnsigned_isDigit _,
    fmt.fmtUnsigned_head _, fmt.fmtUnsigned_value _⟩
  rw [Error_Error_eq]
  apply String.ext
  by_cases hc : c < 0 <;> simp [New, fmt.fmtInteger, hc, String.data_append]

/-- C7: for every message `m` and code `c`, `New(m, c).Code() = c`: `New` is
total and stores the code (and the message) as given. -/
theorem C7_New_Code (m : String) (c : Int) :
    (New m c).Code = c ∧ (New m c).code = c ∧ (New m c).msg = m :=
  ⟨rfl, rfl, rfl⟩

/-- C8: for every `error` value that is not an errobust `Error`, the message
of the fallback `Error` returned by `TryGetCode` is `"could not convert type "`,
then the `%T` name of the dynamic type (`"<nil>"` for a nil error), then
`" to type Error"`; its `Error()` text is that message after `"error[500]: "`. -/
theorem C8_fallback_message (err : GoError) (h : ∀ e : Error, err ≠ .errobust e) :
    ∃ f : Error, (TryGetCode err).2 = GoError.errobust f ∧
      f.msg = "could not convert type " ++
        (match err with
          | .nil => "<nil>"
          | .foreign typeName _ => typeName
          | .errobust _ => "errobust.Error") ++ " to type Error" ∧
      f.Error = "error[500]: could not convert type " ++
        (match err with
          | .nil => "<nil>"
          | .foreign typeName _ => typeName
          | .errobust _ => "errobust.Error") ++ " to type Error" := by
  rw [TryGetCode_of_not_errobust err h]
  refine ⟨_, rfl, ?_, ?_⟩
  · cases err <;> rfl
  · rw [Error_Error_eq]
    show "error[" ++ String.mk (fmt.fmtInteger 500) ++ "]: " ++ _ = _
    rw [fmtInteger_500]
    apply String.ext
    cases err <;> simp [String.data_append, fmt.typeString, GoError.toOperand]

theorem C8_fallback_message_witness :
    ∃ f : Error,
      (TryGetCode (.foreign "*errors.errorString" "boom")).2 = GoError.errobust f ∧
      f.msg = "could not convert type *errors.errorString to type Error" ∧
      f.Error = "error[500]: could not convert type *errors.errorString to type Error" :=
  C8_fallback_message (.foreign "*errors.errorString" "boom")
    (fun _ hne => GoError.noConfusion hne)

/-- C9: for every `Handler` and every `error` value, each of the five
`Handler` methods returns what the free function of the same name returns. -/
theorem C9_Handler_forwards (h : Handler) (err : GoError) :
    h.TryGetCode err = TryGetCode err ∧
    h.GetCode err = GetCode err ∧
    h.IsConflict err = IsConflict err ∧
    h.IsNotFound err = IsNotFound err ∧
    h.IsUnhandled err = IsUnhandled err :=
  ⟨rfl, rfl, rfl, rfl, rfl⟩

/-- C10: `GetCode(err) = -1` exactly when `err` is not an errobust `Error` or
is an errobust `Error` whose stored code is -1; for `New(m, -1)` the conversion
of `TryGetCode` succeeds with a nil error while `GetCode` returns the -1 it
also returns for a failed conversion. -/
theorem C10_sentinel_ambiguous (err : GoError) (m : String) :
    (GetCode err = -1 ↔
      ((∀ e : Error, err ≠ .errobust e) ∨ ∃ e : Error, err = .errobust e ∧ e.Code = -1)) ∧
    TryGetCode (.errobust (New m (-1))) = (-1, GoError.nil) ∧
    GetCode (.errobust (New m (-1))) = -1 ∧
    GetCode GoError.nil = -1 ∧
    GetCode (.errobust (New m (-1))) = GetCode (.foreign "*errors.errorString" "boom") := by
  have hnil : GetCode GoError.nil = -1 :=
    GetCode_of_not_errobust _ (fun _ hne => GoError.noConfusion hne)
  have hfor : GetCode (.foreign "*errors.errorString" "boom") = -1 :=
    GetCode_of_not_errobust _ (fun _ hne => GoError.noConfusion hne)
  refine ⟨?_, rfl, GetCode_errobust _, hnil, ?_⟩
  · constructor
    · intro hg
      cases err with
      | nil => exact Or.inl (fun _ hne => GoError.noConfusion hne)
      | errobust e =>
        rw [GetCode_errobust] at hg
        exact Or.inr ⟨e, rfl, hg⟩
      | foreign t s => exact Or.inl (fun _ hne => GoError.noConfusion hne)
    · rintro (hn | ⟨e, rfl, he⟩)
      · exact GetCode_of_not_errobust err hn
      · rw [GetCode_errobust]
        exact he
  · rw [GetCode_errobust, hfor]
    rfl

end errobust

namespace errobust

/-! ## Classification of the fallback error and agreement of the two paths -/

theorem GetCode_nil : GetCode GoError.nil = -1 :=
  GetCode_of_not_errobust _ (fun _ hne => GoError.noConfusion hne)

theorem GetCode_foreign (t s : String) : GetCode (.foreign t s) = -1 :=
  GetCode_of_not_errobust _ (fun _ hne => GoError.noConfusion hne)

/-- C11: the two classification paths agree: for every `error` value,
`IsConflict` holds exactly when `GetCode` is `Conflict`, `IsNotFound` exactly
when it is `NotFound` and `IsUnhandled` exactly when it is `Unhandled`; the
sentinel -1 is none of the three named codes. -/
theorem C11_paths_agree (err : GoError) :
    (IsConflict err = true ↔ GetCode err = Conflict) ∧
    (IsNotFound err = true ↔ GetCode err = NotFound) ∧
    (IsUnhandled err = true ↔ GetCode err = Unhandled) ∧
    (-1 : Int) ≠ Conflict ∧ (-1 : Int) ≠ NotFound ∧ (-1 : Int) ≠ Unhandled := by
  refine ⟨?_, ?_, ?_, by decide, by decide, by decide⟩
  · cases err with
    | nil => rw [GetCode_nil]; exact ⟨fun hb => Bool.noConfusion hb, fun hc => absurd hc (by decide)⟩
    | errobust e => rw [GetCode_errobust]; simp [IsConflict, GoError.assertError, Error.IsConflict]
    | foreign t s =>
      rw [GetCode_foreign]; exact ⟨fun hb => Bool.noConfusion hb, fun hc => absurd hc (by decide)⟩
  · cases err with
    | nil => rw [GetCode_nil]; exact ⟨fun hb => Bool.noConfusion hb, fun hc => absurd hc (by decide)⟩
    | errobust e => rw [GetCode_errobust]; simp [IsNotFound, GoError.assertError, Error.IsNotFound]
    | foreign t s =>
      rw [GetCode_foreign]; exact ⟨fun hb => Bool.noConfusion hb, fun hc => absurd hc (by decide)⟩
  · cases err with
    | nil => rw [GetCode_nil]; exact ⟨fun hb => Bool.noConfusion hb, fun hc => absurd hc (by decide)⟩
    | errobust e =>
      rw [GetCode_errobust]; simp [IsUnhandled, GoError.assertError, Error.IsUnhandled]
    | foreign t s =>
      rw [GetCode_foreign]; exact ⟨fun hb => Bool.noConfusion hb, fun hc => absurd hc (by decide)⟩

/-- C12: the three classifications exclude one another: for every `error`
value at most one of `IsConflict`, `IsNotFound`, `IsUnhandled` is true, and for
every `Error` at most one of the three methods is true. -/
theorem C12_mutually_exclusive (err : GoError) (e : Error) :
    ¬ (IsConflict err = true ∧ IsNotFound err = true) ∧
    ¬ (IsConflict err = true ∧ IsUnhandled err = true) ∧
    ¬ (IsNotFound err = true ∧ IsUnhandled err = true) ∧
    ¬ (e.IsConflict = true ∧ e.IsNotFound = true) ∧
    ¬ (e.IsConflict = true ∧ e.IsUnhandled = true) ∧
    ¬ (e.IsNotFound = true ∧ e.IsUnhandled = true) := by
  have key : ∀ x : Error,
      ¬ (x.IsConflict = true ∧ x.IsNotFound = true) ∧
      ¬ (x.IsConflict = true ∧ x.IsUnhandled = true) ∧
      ¬ (x.IsNotFound = true ∧ x.IsUnhandled = true) := by
    intro x
    simp only [Error.IsConflict, Error.IsNotFound, Error.IsUnhandled, Conflict, NotFound,
      Unhandled, http.StatusConflict, http.StatusNotFound, http.StatusInternalServerError,
      beq_iff_eq]
    omega
  obtain ⟨k1, k2, k3⟩ := key e
  refine ⟨?_, ?_, ?_, k1, k2, k3⟩
  · cases err with
    | nil => exact fun hb => Bool.noConfusion hb.1
    | errobust x => exact (key x).1
    | foreign t s => exact fun hb => Bool.noConfusion hb.1
  · cases err with
    | nil => exact fun hb => Bool.noConfusion hb.1
    | errobust x => exact (key x).2.1
    | foreign t s => exact fun hb => Bool.noConfusion hb.1
  · cases err with
    | nil => exact fun hb => Bool.noConfusion hb.1
    | errobust x => exact (key x).2.2
    | foreign t s => exact fun hb => Bool.noConfusion hb.1

/-- C13: the fallback error of `TryGetCode` is itself classifiable: when `err`
is not an errobust `Error` and `f` is the error `TryGetCode(err)` returns, then
`TryGetCode(f) = (500, nil)`, `GetCode(f) = 500`, `IsUnhandled(f)` is true and
`IsConflict(f)`, `IsNotFound(f)` are false. -/
theorem C13_fallback_classifiable (err : GoError) (h : ∀ e : Error, err ≠ .errobust e) :
    TryGetCode (TryGetCode err).2 = (500, GoError.nil) ∧
    GetCode (TryGetCode err).2 = 500 ∧
    IsUnhandled (TryGetCode err).2 = true ∧
    IsConflict (TryGetCode err).2 = false ∧
    IsNotFound (TryGetCode err).2 = false := by
  rw [TryGetCode_of_not_errobust err h]
  exact ⟨rfl, GetCode_errobust _, rfl, rfl, rfl⟩

theorem C13_fallback_classifiable_witness :
    TryGetCode (TryGetCode (.foreign "*errors.errorString" "boom")).2 = (500, GoError.nil) ∧
    GetCode (TryGetCode (.foreign "*errors.errorString" "boom")).2 = 500 ∧
    IsUnhandled (TryGetCode (.foreign "*errors.errorString" "boom")).2 = true ∧
    IsConflict (TryGetCode (.foreign "*errors.errorString" "boom")).2 = false ∧
    IsNotFound (TryGetCode (.foreign "*errors.errorString" "boom")).2 = false :=
  C13_fallback_classifiable (.foreign "*errors.errorString" "boom")
    (fun _ hne => GoError.noConfusion hne)

end errobust

namespace errobust

/-! ## The rendering determines the code and the message -/

namespace fmt

theorem fmtUnsigned_injective (a b : Nat) (h : fmtUnsigned a = fmtUnsigned b) : a = b := by
  have ha := fmtUnsigned_value a
  rw [h, fmtUnsigned_value b] at ha
  exact ha.symm

theorem fmtUnsigned_no_minus (u : Nat) (t : List Char) : fmtUnsigned u ≠ '-' :: t := by
  intro hu
  have hd := fmtUnsigned_isDigit u '-' (by rw [hu]; exact List.mem_cons_self _ _)
  exact absurd hd (by decide)

theorem fmtInteger_injective (a b : Int) (h : fmtInteger a = fmtInteger b) : a = b := by
  unfold fmtInteger at h
  by_cases ha : a < 0 <;> by_cases hb : b < 0
  · rw [if_pos ha, if_pos hb] at h
    have := fmtUnsigned_injective _ _ (List.cons.inj h).2
    omega
  · rw [if_pos ha, if_neg hb] at h
    exact absurd h.symm (fmtUnsigned_no_minus _ _)
  · rw [if_neg ha, if_pos hb] at h
    exact absurd h (fmtUnsigned_no_minus _ _)
  · rw [if_neg ha, if_neg hb] at h
    have := fmtUnsigned_injective _ _ h
    omega

/-- The decimal rendering of an integer holds no `']'`. -/
theorem fmtInteger_no_bracket (v : Int) : ']' ∉ fmtInteger v := by
  intro hmem
  have hdig : ∀ u : Nat, ']' ∉ fmtUnsigned u := fun u hu =>
    absurd (fmtUnsigned_isDigit u ']' hu) (by decide)
  unfold fmtInteger at hmem
  split at hmem
  · rcases List.mem_cons.mp hmem with hc | hc
    · exact absurd hc (by decide)
    · exact hdig _ hc
  · exact hdig _ hmem

end fmt

/-- Two lists that agree, each cut at the first occurrence of `c`, have the
same part before it and the same part after it. -/
theorem eq_of_append_cons_eq (c : Char) (r₁ r₂ t₁ t₂ : List Char)
    (h₁ : c ∉ r₁) (h₂ : c ∉ r₂) (h : r₁ ++ c :: t₁ = r₂ ++ c :: t₂) :
    r₁ = r₂ ∧ t₁ = t₂ := by
  induction r₁ generalizing r₂ with
  | nil =>
    cases r₂ with
    | nil => exact ⟨rfl, (List.cons.inj h).2⟩
    | cons y ys =>
      have hy : c = y := (List.cons.inj h).1
      exact absurd (hy ▸ List.mem_cons_self c ys) h₂
  | cons x xs ih =>
    cases r₂ with
    | nil =>
      have hx : x = c := (List.cons.inj h).1
      exact absurd (hx ▸ List.mem_cons_self x xs) h₁
    | cons y ys =>
      obtain ⟨hxy, hrest⟩ := List.cons.inj h
      obtain ⟨hr, ht⟩ := ih ys (fun hm => h₁ (List.mem_cons_of_mem _ hm))
        (fun hm => h₂ (List.mem_cons_of_mem _ hm)) hrest
      exact ⟨by rw [hxy, hr], ht⟩

theorem Error_Error_data (e : Error) :
    e.Error.data = "error[".data ++ (fmt.fmtInteger e.code ++ ']' :: (':' :: ' ' :: e.msg.data)) := by
  rw [Error_Error_eq]
  simp [String.data_append]

/-- C14: the rendering `Error()` is injective: when `New(m1, c1).Error()` and
`New(m2, c2).Error()` are the same string, then `c1 = c2` and `m1 = m2`; the
decimal code holds no `']'`, so the first `']'` ends it even when the message
itself contains `"]: "`. -/
theorem C14_Error_injective (m1 m2 : String) (c1 c2 : Int)
    (h : (New m1 c1).Error = (New m2 c2).Error) :
    c1 = c2 ∧ m1 = m2 ∧ ']' ∉ fmt.fmtInteger c1 ∧ ']' ∉ fmt.fmtInteger c2 := by
  have hd := congrArg String.data h
  rw [Error_Error_data, Error_Error_data] at hd
  have hcut := eq_of_append_cons_eq ']' _ _ _ _ (fmt.fmtInteger_no_bracket c1)
    (fmt.fmtInteger_no_bracket c2) (List.append_cancel_left hd)
  refine ⟨fmt.fmtInteger_injective _ _ hcut.1, ?_, fmt.fmtInteger_no_bracket c1,
    fmt.fmtInteger_no_bracket c2⟩
  have hm : m1.data = m2.data := (List.cons.inj (List.cons.inj hcut.2).2).2
  exact String.ext hm

theorem C14_Error_injective_witness :
    (New "a]: b" (-7)).Error = (New "a]: b" (-7)).Error ∧
    ((-7 : Int) = -7 ∧ "a]: b" = "a]: b" ∧
      ']' ∉ fmt.fmtInteger (-7) ∧ ']' ∉ fmt.fmtInteger (-7)) :=
  ⟨rfl, C14_Error_injective "a]: b" "a]: b" (-7) (-7) rfl⟩

theorem Error_example_distinct :
    (New "]: x" 1).Error ≠ (New "x" 1).Error ∧ (New "2]: x" 1).Error ≠ (New "x" 12).Error := by
  decide

end errobust
